import Mathlib

/-!
Shallow embedding of the fasten-webhook-service event-processing core:
the webhook event dispatcher and handlers (server module), the export
trigger guard, the FHIR transform pipeline (both the whole-payload and
the streaming variant), the record cache, the retrying provider fetch,
and the export timeout diagnostics.  JavaScript `Map` objects are
modelled as association lists, `Set` objects as lists without
duplicates, and external effects (fetch, JSON.parse, the wall clock)
as explicit environment parameters.
-/

namespace Fasten

/-! ## Association-list model of JavaScript Map -/

/-- Lookup in an association list, mirroring `Map.get`. -/
def alistGet {α : Type} (m : List (String × α)) (k : String) : Option α :=
  match m with
  | [] => none
  | (k', v) :: t => if k' = k then some v else alistGet t k

/-- `Map.set`: overwrite the value in place when the key is present,
append a fresh entry otherwise. -/
def alistSet {α : Type} (m : List (String × α)) (k : String) (v : α) :
    List (String × α) :=
  match m with
  | [] => [(k, v)]
  | (k', v') :: t =>
      if k' = k then (k, v) :: t else (k', v') :: alistSet t k v

/-- `Map.delete`: drop every entry with the given key. -/
def alistDel {α : Type} (m : List (String × α)) (k : String) :
    List (String × α) :=
  m.filter (fun p => p.1 ≠ k)

/-- `Map.has`. -/
def alistHas {α : Type} (m : List (String × α)) (k : String) : Bool :=
  (alistGet m k).isSome

theorem alistGet_set_self {α : Type} (m : List (String × α)) (k : String)
    (v : α) : alistGet (alistSet m k v) k = some v := by
  induction m with
  | nil => simp [alistGet, alistSet]
  | cons p t ih =>
      obtain ⟨k', v'⟩ := p
      by_cases h : k' = k <;> simp [alistGet, alistSet, h, ih]

theorem alistGet_set_other {α : Type} (m : List (String × α)) (k k' : String)
    (v : α) (h : k ≠ k') : alistGet (alistSet m k v) k' = alistGet m k' := by
  induction m with
  | nil => simp [alistGet, alistSet, h]
  | cons p t ih =>
      obtain ⟨k₀, v₀⟩ := p
      by_cases h₀ : k₀ = k
      · subst h₀; simp [alistGet, alistSet, h]
      · simp [alistGet, alistSet, h₀, ih]

/-! ## JavaScript Set model -/

/-- `Set.add`: append the element when absent. -/
def setAdd (s : List String) (x : String) : List String :=
  if x ∈ s then s else s ++ [x]

/-- `Set.delete`. -/
def setDel (s : List String) (x : String) : List String :=
  s.filter (fun y => y ≠ x)

theorem mem_setAdd_self (s : List String) (x : String) : x ∈ setAdd s x := by
  by_cases h : x ∈ s <;> simp [setAdd, h]

/-! ## String.trim and newline splitting over character lists

Payload text is modelled as `List Char`.  `splitLines` mirrors
JavaScript `text.split('\n')` (it always yields at least one piece and
keeps empty pieces), and `trimChars` mirrors `String.prototype.trim`
restricted to the whitespace characters that occur in JSONL payloads. -/

/-- Whitespace test used by the trim model. -/
def isWs (c : Char) : Bool :=
  c = ' ' || c = '\n' || c = '\t' || c = '\r'

/-- Model of `line.trim()`. -/
def trimChars (l : List Char) : List Char :=
  ((l.dropWhile isWs).reverse.dropWhile isWs).reverse

/-- Model of `line.trim()` being truthy: some non-whitespace character
remains. -/
def trimNonempty (l : List Char) : Bool :=
  !(trimChars l).isEmpty

/-- Model of `text.split('\n')`. -/
def splitLines : List Char → List (List Char)
  | [] => [[]]
  | c :: cs =>
      if c = '\n' then [] :: splitLines cs
      else
        match splitLines cs with
        | [] => [[c]]
        | l :: ls => (c :: l) :: ls

theorem splitLines_ne_nil (xs : List Char) : splitLines xs ≠ [] := by
  cases xs with
  | nil => simp [splitLines]
  | cons c cs =>
      by_cases h : c = '\n'
      · simp [splitLines, h]
      · simp only [splitLines, h, if_false]
        cases splitLines cs <;> simp

/-- Prepend a carry onto the head piece of a split result. -/
def consHead (l : List Char) : List (List Char) → List (List Char)
  | [] => [l]
  | h :: t => (l ++ h) :: t

theorem splitLines_cons_ne (c : Char) (cs : List Char) (hc : c ≠ '\n') :
    splitLines (c :: cs) =
      match splitLines cs with
      | [] => [[c]]
      | l :: ls => (c :: l) :: ls := by
  simp [splitLines, hc]

/-- The last piece of the split, i.e. the trailing characters after the
final newline. -/
def lastLine (xs : List Char) : List Char :=
  (splitLines xs).getLastD []

theorem splitLines_no_newline (xs : List Char) (h : '\n' ∉ xs) :
    splitLines xs = [xs] := by
  induction xs with
  | nil => simp [splitLines]
  | cons c cs ih =>
      have hc : c ≠ '\n' := by
        intro he; exact h (by simp [he])
      have hcs : '\n' ∉ cs := by
        intro hm; exact h (by simp [hm])
      simp [splitLines, hc, ih hcs]

theorem splitLines_append (xs ys : List Char) :
    splitLines (xs ++ ys) =
      (splitLines xs).dropLast ++ consHead (lastLine xs) (splitLines ys) := by
  induction xs with
  | nil =>
      have h := splitLines_ne_nil ys
      cases he : splitLines ys with
      | nil => exact absurd he h
      | cons a l => simp [splitLines, lastLine, consHead, he]
  | cons c cs ih =>
      have hstep : (c :: cs) ++ ys = c :: (cs ++ ys) := rfl
      by_cases hc : c = '\n'
      · subst hc
        have hne := splitLines_ne_nil cs
        cases he : splitLines cs with
        | nil => exact absurd he hne
        | cons a l =>
            rw [hstep]
            show [] :: splitLines (cs ++ ys) = _
            rw [ih]
            simp [splitLines, lastLine, he, List.getLastD_cons]
      · have hne2 := splitLines_ne_nil cs
        cases he : splitLines cs with
        | nil => exact absurd he hne2
        | cons a l =>
            have hsy := splitLines_ne_nil ys
            cases hy : splitLines ys with
            | nil => exact absurd hy hsy
            | cons b bs =>
                cases l with
                | nil =>
                    -- splitLines cs = [a], so cs holds no newline piece split
                    have hcsys : splitLines (cs ++ ys) = (a ++ b) :: bs := by
                      rw [ih]
                      simp [he, hy, lastLine, consHead]
                    rw [hstep, splitLines_cons_ne c (cs ++ ys) hc, hcsys]
                    have hcc : splitLines (c :: cs) = [c :: a] := by
                      simp [splitLines, hc, he]
                    simp [hcc, lastLine, consHead, hy]
                | cons a2 l2 =>
                    have hcsys : splitLines (cs ++ ys) =
                        a :: ((a2 :: l2).dropLast ++
                          consHead (lastLine cs) (b :: bs)) := by
                      rw [ih]
                      simp [he, hy, List.dropLast_cons_of_ne_nil]
                    rw [hstep, splitLines_cons_ne c (cs ++ ys) hc, hcsys]
                    have hcc : splitLines (c :: cs) =
                        (c :: a) :: (a2 :: l2) := by
                      simp [splitLines, hc, he]
                    have hll : lastLine (c :: cs) = lastLine cs := by
                      simp [lastLine, hcc, he, List.getLastD_cons]
                    simp [hcc, hll, consHead, hy,
                      List.dropLast_cons_of_ne_nil]

theorem lastLine_no_newline (xs ys : List Char) (h : '\n' ∉ ys) :
    lastLine (xs ++ ys) = lastLine xs ++ ys := by
  rw [lastLine, splitLines_append, splitLines_no_newline ys h]
  simp [consHead, List.getLastD_concat]

theorem no_newline_lastLine (xs : List Char) (h : '\n' ∉ xs) :
    lastLine xs = xs := by
  simp [lastLine, splitLines_no_newline xs h]

theorem no_newline_mem_lastLine (xs : List Char) :
    '\n' ∉ lastLine xs := by
  induction xs with
  | nil => simp [lastLine, splitLines]
  | cons c cs ih =>
      by_cases hc : c = '\n'
      · subst hc
        have hne := splitLines_ne_nil cs
        cases he : splitLines cs with
        | nil => exact absurd he hne
        | cons a l =>
            have h1 : lastLine ('\n' :: cs) = lastLine cs := by
              simp [lastLine, splitLines, he, List.getLastD_cons]
            rw [h1]; exact ih
      · have hne := splitLines_ne_nil cs
        cases he : splitLines cs with
        | nil => exact absurd he hne
        | cons a l =>
            cases l with
            | nil =>
                have ha : lastLine cs = a := by simp [lastLine, he]
                have hmem : '\n' ∉ a := ha ▸ ih
                have h2 : lastLine (c :: cs) = c :: a := by
                  simp [lastLine, splitLines, hc, he]
                rw [h2]
                intro hmem2
                rcases List.mem_cons.mp hmem2 with h | h
                · exact hc h.symm
                · exact hmem h
            | cons a2 l2 =>
                have h3 : lastLine (c :: cs) = lastLine cs := by
                  simp [lastLine, splitLines, hc, he, List.getLastD_cons]
                rw [h3]; exact ih

/-! ## Data model

`Resource` models the result of `JSON.parse` on one JSONL line: the
fields the pipeline reads (`resourceType`, `id`) plus the original
parsed payload kept opaque.  `JSON.parse` itself is an external
primitive and enters the model as an environment function
`parseJSON : List Char -> Option Resource` (`none` models a parse
exception). -/

structure Resource where
  resourceType : Option String
  id : Option String
  blob : String
deriving DecidableEq, Repr

/-- One normalized record, as built by `transformForFoundry` in the
foundry-integration module. -/
structure FoundryRecord where
  auth0_user_id : String
  org_connection_id : String
  ingested_at : String
  fhir_resource : Resource
  resource_type : Option String
  resource_id : Option String
  source : String
deriving DecidableEq, Repr

/-- The record object built for one resource inside
`transformForFoundry`: the original resource kept unchanged plus
ownership and provenance metadata. -/
def mkFoundryRecord (orgConnectionId externalId timestamp : String)
    (resource : Resource) : FoundryRecord :=
  { auth0_user_id := externalId
    org_connection_id := orgConnectionId
    ingested_at := timestamp
    fhir_resource := resource
    resource_type := resource.resourceType
    resource_id := resource.id
    source := "fasten-connect" }

/-- `transformForFoundry(fhirResources, orgConnectionId, externalId)`:
map each parsed resource 1:1 onto a normalized record.  The
`new Date().toISOString()` taken once at the top of the function is the
explicit `timestamp` parameter here. -/
def transformForFoundry (fhirResources : List Resource)
    (orgConnectionId externalId timestamp : String) : List FoundryRecord :=
  fhirResources.map (mkFoundryRecord orgConnectionId externalId timestamp)

/-- The JSONL parse stage of `downloadAndProcessFHIR`:
`content.split('\n').filter(line => line.trim()).map(JSON.parse or null)
.filter(r => r !== null)`. -/
def parseLines (parseJSON : List Char → Option Resource)
    (content : List Char) : List Resource :=
  ((splitLines content).filter trimNonempty).filterMap parseJSON

/-- One entry of the bounded ingestion history kept by
`storeForFoundryIngestion`. -/
structure BatchSnapshot where
  external_id : String
  org_connection_id : String
  ingested_at : String
  record_count : Nat
  resource_types : List (String × Nat)
  raw_payload_preview : Option String
deriving DecidableEq, Repr

/-- Bump a count in the resource-type breakdown object. -/
def bumpCount (acc : List (String × Nat)) (k : String) : List (String × Nat) :=
  match alistGet acc k with
  | some n => alistSet acc k (n + 1)
  | none => alistSet acc k 1

/-- The `resourceTypes` breakdown computed by
`storeForFoundryIngestion`; an absent `resource_type` shows up as the
JavaScript string "undefined". -/
def countResourceTypes (records : List FoundryRecord) : List (String × Nat) :=
  records.foldl (fun acc r => bumpCount acc (r.resource_type.getD "undefined"))
    []

/-- The history ring-buffer bound (`HISTORY_LIMIT`). -/
def HISTORY_LIMIT : Nat := 100

/-- `storeForFoundryIngestion(externalId, orgConnectionId,
foundryRecords, rawPayload)`: append the records to the user's
collection in `foundryDataStore` and push a snapshot onto the bounded
`ingestionHistory` (oldest entries spliced off the front). -/
def storeForFoundryIngestion (externalId orgConnectionId : String)
    (foundryRecords : List FoundryRecord) (nowISO : String)
    (rawPreview : Option String)
    (store : List (String × List FoundryRecord))
    (hist : List BatchSnapshot) :
    List (String × List FoundryRecord) × List BatchSnapshot :=
  let userRecords := (alistGet store externalId).getD []
  let store' := alistSet store externalId (userRecords ++ foundryRecords)
  let snapshot : BatchSnapshot :=
    { external_id := externalId
      org_connection_id := orgConnectionId
      ingested_at := nowISO
      record_count := foundryRecords.length
      resource_types := countResourceTypes foundryRecords
      raw_payload_preview := rawPreview }
  let hist' := hist ++ [snapshot]
  let hist'' :=
    if HISTORY_LIMIT < hist'.length then
      hist'.drop (hist'.length - HISTORY_LIMIT)
    else hist'
  (store', hist'')

/-- The parsed body of the provider response to an export request.  The
handler reads `status` (defaulting to "requested") and `task_id`,
collapsing the `response?.data || response` indirection of the source
into one record. -/
structure ExportResponse where
  status : Option String := none
  task_id : Option String := none
deriving DecidableEq, Repr

/-- External collaborators of the event core, passed explicitly: the
provider export call, the bulk download, JSON parsing and the clock. -/
structure Env where
  fastenConfigured : Bool
  requestEHIExport : String → Except String ExportResponse
  download : String → Option (List Char)
  parseJSON : List Char → Option Resource
  nowISO : String
  expiresISO : String

/-- `downloadAndProcessFHIR(downloadLink, orgConnectionId, externalId)`
from the foundry-integration module: abort when credentials are missing
or the download fails (`.error`, the thrown exception); otherwise parse
the JSONL content line by line skipping malformed lines, transform, and
store, returning the produced records. -/
def downloadAndProcessFHIR (env : Env) (downloadLink : Option String)
    (orgConnectionId externalId : String)
    (store : List (String × List FoundryRecord)) (hist : List BatchSnapshot) :
    Except String
      (List FoundryRecord × List (String × List FoundryRecord) ×
        List BatchSnapshot) :=
  if !env.fastenConfigured then
    .error "Fasten credentials are not configured"
  else
    match downloadLink with
    | none => .error "Failed to download FHIR data"
    | some link =>
        match env.download link with
        | none => .error "Failed to download FHIR data"
        | some content =>
            let fhirResources := parseLines env.parseJSON content
            let foundryRecords :=
              transformForFoundry fhirResources orgConnectionId externalId
                env.nowISO
            let (store', hist') :=
              storeForFoundryIngestion externalId orgConnectionId
                foundryRecords env.nowISO (some (String.mk content)) store hist
            .ok (foundryRecords, store', hist')

/-! ## Streaming transform (`streamProcessFHIR`)

The fetch/reader loop of the performance-optimizations module, with the
byte stream modelled as the list of decoded text chunks.  Each chunk is
appended to the carry buffer, split on newlines, the trailing
incomplete line kept as the next carry; complete lines are parsed and
batched, the batch being flushed into the output when it reaches the
configured batch size and at the end of each chunk. -/

/-- The per-chunk line loop: parse each nonempty line, push the
transformed record onto the current batch, flush the batch into `out`
once `batch.length >= batchSize`, and flush the remainder after the
loop. -/
def batchLoop (parseJSON : List Char → Option Resource) (batchSize : Nat)
    (orgConnectionId externalId timestamp : String)
    (out batch : List FoundryRecord) :
    List (List Char) → List FoundryRecord
  | [] => if batch.isEmpty then out else out ++ batch
  | line :: rest =>
      if trimNonempty line then
        match parseJSON line with
        | some resource =>
            match transformForFoundry [resource] orgConnectionId externalId
                timestamp with
            | t :: _ =>
                let batch' := batch ++ [t]
                if batchSize ≤ batch'.length then
                  batchLoop parseJSON batchSize orgConnectionId externalId
                    timestamp (out ++ batch') [] rest
                else
                  batchLoop parseJSON batchSize orgConnectionId externalId
                    timestamp out batch' rest
            | [] =>
                batchLoop parseJSON batchSize orgConnectionId externalId
                  timestamp out batch rest
        | none =>
            batchLoop parseJSON batchSize orgConnectionId externalId
              timestamp out batch rest
      else
        batchLoop parseJSON batchSize orgConnectionId externalId timestamp
          out batch rest

/-- The reader loop of `streamProcessFHIR`: consume chunks with a carry
buffer, then parse the final buffer if it is nonempty. -/
def streamChunks (parseJSON : List Char → Option Resource) (batchSize : Nat)
    (orgConnectionId externalId timestamp : String)
    (acc : List FoundryRecord) (buffer : List Char) :
    List (List Char) → List FoundryRecord
  | [] =>
      if trimNonempty buffer then
        match parseJSON buffer with
        | some resource =>
            match transformForFoundry [resource] orgConnectionId externalId
                timestamp with
            | t :: _ => acc ++ [t]
            | [] => acc
        | none => acc
      else acc
  | chunk :: rest =>
      let lines := splitLines (buffer ++ chunk)
      let buffer' := lines.getLastD []
      let complete := lines.dropLast
      let acc' :=
        batchLoop parseJSON batchSize orgConnectionId externalId timestamp
          acc [] complete
      streamChunks parseJSON batchSize orgConnectionId externalId timestamp
        acc' buffer' rest

/-- `streamProcessFHIR` on an already-fetched stream of text chunks:
initial empty carry buffer and output. -/
def streamProcessFHIR (parseJSON : List Char → Option Resource)
    (batchSize : Nat) (orgConnectionId externalId timestamp : String)
    (chunks : List (List Char)) : List FoundryRecord :=
  streamChunks parseJSON batchSize orgConnectionId externalId timestamp
    [] [] chunks

/-! ## FoundryCache (performance-optimizations module)

`Date.now()` enters the model as an explicit `now : Nat` millisecond
argument.  `get` deletes an expired entry, so it returns the updated
cache alongside the value. -/

/-- `OPTIMIZATION_CONFIG.foundry.cacheTTLMs`: 5 minutes. -/
def cacheTTLMs : Nat := 300000

structure CacheEntry (α : Type) where
  value : α
  timestamp : Nat
deriving DecidableEq, Repr

structure FoundryCache (α : Type) where
  entries : List (String × CacheEntry α)
  ttlMs : Nat := cacheTTLMs
deriving DecidableEq, Repr

/-- `new FoundryCache()`. -/
def FoundryCache.empty (α : Type) (ttl : Nat := cacheTTLMs) :
    FoundryCache α :=
  { entries := [], ttlMs := ttl }

/-- `cache.set(key, value)` at time `now`. -/
def FoundryCache.setAt {α : Type} (c : FoundryCache α) (key : String)
    (value : α) (now : Nat) : FoundryCache α :=
  { c with entries := alistSet c.entries key { value := value, timestamp := now } }

/-- `cache.get(key)` at time `now`: a present entry strictly older than
the TTL is deleted and reported as a miss (`none`). -/
def FoundryCache.getAt {α : Type} (c : FoundryCache α) (key : String)
    (now : Nat) : Option α × FoundryCache α :=
  match alistGet c.entries key with
  | none => (none, c)
  | some entry =>
      if c.ttlMs < now - entry.timestamp then
        (none, { c with entries := alistDel c.entries key })
      else
        (some entry.value, c)

/-- `getAllFoundryData()`: concatenate every per-user record list in
store iteration order. -/
def getAllFoundryData (store : List (String × List FoundryRecord)) :
    List FoundryRecord :=
  store.foldl (fun acc p => acc ++ p.2) []

/-- The `GET /api/foundry/data` endpoint body: serve the cached
aggregate when present, otherwise read fresh and fill the cache. -/
def foundryDataEndpoint (store : List (String × List FoundryRecord))
    (cache : FoundryCache (List FoundryRecord)) (now : Nat) :
    List FoundryRecord × FoundryCache (List FoundryRecord) :=
  match cache.getAt "foundry-data-all" now with
  | (some allData, cache') => (allData, cache')
  | (none, cache') =>
      let allData := getAllFoundryData store
      (allData, cache'.setAt "foundry-data-all" allData now)

/-! ## Provider fetch with bounded retry (fasten-api module) -/

/-- `RETRYABLE_STATUSES`. -/
def retryableStatuses : List Nat := [408, 429, 500, 502, 503, 504]

/-- One HTTP response as the retry loop observes it. -/
structure FetchResponse where
  ok : Bool
  status : Nat
deriving DecidableEq, Repr

/-- The observable outcome of `authorizedFastenFetch`: the final result
(success attempt number or thrown status), how many fetches were
issued, the backoff delays that were awaited, and the statuses that
caused a retry. -/
structure FetchOutcome where
  result : Except Nat Nat
  fetchCalls : Nat
  delays : List Nat
  retriedStatuses : List Nat
deriving Repr

/-- The recursive body of `authorizedFastenFetch(pathOrUrl, options,
attempt)`: return on `response.ok`; when `attempt <= maxRetries` and
the status is retryable, wait `retryDelayMs * attempt` and recurse with
`attempt + 1`; otherwise throw the status.  The network is the
environment function `responses : Nat -> FetchResponse` giving the
response to the fetch issued on each attempt. -/
def authorizedFastenFetch (responses : Nat → FetchResponse)
    (maxRetries retryDelayMs attempt : Nat) : FetchOutcome :=
  let r := responses attempt
  if r.ok then
    { result := .ok attempt, fetchCalls := 1, delays := [],
      retriedStatuses := [] }
  else if attempt ≤ maxRetries ∧ r.status ∈ retryableStatuses then
    let rest :=
      authorizedFastenFetch responses maxRetries retryDelayMs (attempt + 1)
    { result := rest.result
      fetchCalls := rest.fetchCalls + 1
      delays := retryDelayMs * attempt :: rest.delays
      retriedStatuses := r.status :: rest.retriedStatuses }
  else
    { result := .error r.status, fetchCalls := 1, delays := [],
      retriedStatuses := [] }
termination_by maxRetries + 1 - attempt
decreasing_by
  simp_wf
  omega

/-- The `maxRetries = 3` option default. -/
def defaultMaxRetries : Nat := 3

/-- The `retryDelayMs = 500` option default. -/
def defaultRetryDelayMs : Nat := 500

/-! ## Export timeout diagnostics (webhook-diagnostics module) -/

/-- `EXPORT_TIMEOUT`: 30 minutes in milliseconds, set once in the
constructor and used for every monitored connection. -/
def EXPORT_TIMEOUT : Nat := 30 * 60 * 1000

/-- The per-connection data stored by the webhook server and read by
the handlers. -/
structure ConnectionData where
  endpointId : Option String := none
  brandId : Option String := none
  portalId : Option String := none
  connectionStatus : Option String := none
  platformType : Option String := none
  externalId : Option String := none
  connectedAt : String := ""
  exportStatus : String := "pending"
  lastExportSuccess : Option String := none
  lastExportFailure : Option String := none
  failureReason : Option String := none
  revokedAt : Option String := none
  pendingTaskId : Option String := none
  exportError : Option String := none
  lastExportRequested : Option String := none
deriving DecidableEq, Repr

/-- One entry of `diagnostics.connectionTimeouts`: the scheduled
deadline duration, start time and monitoring status. -/
structure MonitorEntry where
  timeoutMs : Nat
  startedAt : String
  connectionData : ConnectionData
  status : String
deriving DecidableEq, Repr

/-- `startExportMonitoring(orgConnectionId, connectionData)`: schedule
one deadline of `EXPORT_TIMEOUT` milliseconds and record the entry as
`monitoring`. -/
def startExportMonitoring (monitors : List (String × MonitorEntry))
    (orgConnectionId : String) (connectionData : ConnectionData)
    (nowISO : String) : List (String × MonitorEntry) :=
  alistSet monitors orgConnectionId
    { timeoutMs := EXPORT_TIMEOUT
      startedAt := nowISO
      connectionData := connectionData
      status := "monitoring" }

/-- `stopExportMonitoring(orgConnectionId)`: cancel the timer and mark
the entry `completed` when one exists; a no-op otherwise. -/
def stopExportMonitoring (monitors : List (String × MonitorEntry))
    (orgConnectionId : String) : List (String × MonitorEntry) :=
  match alistGet monitors orgConnectionId with
  | none => monitors
  | some entry =>
      alistSet monitors orgConnectionId { entry with status := "completed" }

/-- `getKnownProviderIssues(connectionData)`: diagnostic annotations
for providers known to be slow; the only platform-specific knowledge in
the diagnostics module. -/
def getKnownProviderIssues (connectionData : ConnectionData) :
    List String :=
  (if connectionData.platformType = some "epic" then
    ["Epic systems can be slow, especially large health systems",
     "Some Epic instances have export delays of 30+ minutes",
     "Epic may silently fail if patient has no records"]
  else []) ++
  (if connectionData.portalId = some "20cad42b-0e5d-44a6-ba0b-fc20a6a24fef"
  then ["Denver Health - Known for slow/unreliable exports"]
  else [])

/-! ## Export trigger guard (server module)

`triggerExportForConnection` runs on the JavaScript event loop: the
membership check on `pendingExportRequests` and the `add` happen
atomically before the first `await`, and the `finally` delete happens
after the provider call resolves.  `beginTrigger` is that atomic
check-and-add prefix and `finishTrigger` the `finally` clause; the
sequential `triggerExportForConnection` composes them with the provider
call in between. -/

/-- The atomic check-and-add prefix: returns whether this invocation
proceeds to call the provider, and the updated pending set. -/
def beginTrigger (pending : List String) (orgConnectionId : String) :
    Bool × List String :=
  if orgConnectionId ∈ pending then (false, pending)
  else (true, setAdd pending orgConnectionId)

/-- The `finally` clause: remove the connection from the pending set. -/
def finishTrigger (pending : List String) (orgConnectionId : String) :
    List String :=
  setDel pending orgConnectionId

/-- Apply the provider response (or the caught error) to the
connection data, as the body of `triggerExportForConnection` does. -/
def applyTriggerResult (result : Except String ExportResponse)
    (requestTimestamp : String) (cd : ConnectionData) : ConnectionData :=
  match result with
  | .ok resp =>
      let status := resp.status.getD "requested"
      let cd' := { cd with exportStatus := status,
                           lastExportRequested := some requestTimestamp }
      match resp.task_id with
      | some taskId => { cd' with pendingTaskId := some taskId }
      | none => cd'
  | .error msg =>
      { cd with exportStatus := "request_failed",
                exportError := some msg,
                lastExportRequested := some requestTimestamp }

/-- `triggerExportForConnection(orgConnectionId, connectionData)` run
to completion with no interleaving: guard, provider call, connection
update, `finally` delete.  The boolean reports whether the provider was
called. -/
def triggerExportForConnection (env : Env) (requestTimestamp : String)
    (pending : List String) (orgConnectionId : String)
    (connectionData : Option ConnectionData) :
    List String × Option ConnectionData × Bool :=
  match beginTrigger pending orgConnectionId with
  | (false, p) => (p, connectionData, false)
  | (true, p) =>
      let result := env.requestEHIExport orgConnectionId
      let connectionData' :=
        connectionData.map (applyTriggerResult result requestTimestamp)
      (finishTrigger p orgConnectionId, connectionData', true)

/-- The number of provider calls made when two trigger requests for the
same connection interleave as: A begins, B begins while A is still in
flight, then both finish. -/
def concurrentTriggerProviderCalls (pending : List String)
    (orgConnectionId : String) : Nat :=
  let (b1, p1) := beginTrigger pending orgConnectionId
  let (b2, _) := beginTrigger p1 orgConnectionId
  (if b1 then 1 else 0) + (if b2 then 1 else 0)

/-! ## Webhook server state and event handlers (server module) -/

/-- One current export record per connection
(`connectionExports` values). -/
structure ExportData where
  status : String
  downloadLink : Option String := none
  stats : Option String := none
  taskId : Option String := none
  orgId : Option String := none
  failureReason : Option String := none
  timestamp : String := ""
  expiresAt : Option String := none
deriving DecidableEq, Repr

/-- The `data` object of an inbound webhook body; absent JSON fields
are `none`. -/
structure EventData where
  org_connection_id : String := ""
  endpoint_id : Option String := none
  brand_id : Option String := none
  portal_id : Option String := none
  connection_status : Option String := none
  platform_type : Option String := none
  external_id : Option String := none
  download_link : Option String := none
  stats : Option String := none
  task_id : Option String := none
  org_id : Option String := none
  failure_reason : Option String := none
deriving DecidableEq, Repr

/-- An inbound webhook body `with fields id?, type, api_mode?, data`. -/
structure WebhookBody where
  id : Option String := none
  type : String
  api_mode : Option String := none
  data : EventData
deriving DecidableEq, Repr

/-- The in-memory state mutated by the handlers: the idempotency
ledger, the per-connection export and connection maps, the per-user
indexes, the foundry record store with its ingestion history, the
in-flight trigger set and the timeout monitors. -/
structure ServerState where
  processedEventIds : List String := []
  connectionExports : List (String × ExportData) := []
  connectionStatus : List (String × ConnectionData) := []
  userConnections : List (String × List String) := []
  userExports : List (String × List (String × ExportData)) := []
  foundryDataStore : List (String × List FoundryRecord) := []
  ingestionHistory : List BatchSnapshot := []
  pendingExportRequests : List String := []
  monitors : List (String × MonitorEntry) := []
deriving DecidableEq, Repr

/-- `userExports.get(externalId).set(orgConnectionId, exportData)`,
creating the inner map when absent. -/
def userExportsSet (ue : List (String × List (String × ExportData)))
    (externalId orgConnectionId : String) (exportData : ExportData) :
    List (String × List (String × ExportData)) :=
  alistSet ue externalId
    (alistSet ((alistGet ue externalId).getD []) orgConnectionId exportData)

/-- The export record built by `handleExportSuccess`. -/
def mkSuccessExportData (env : Env) (data : EventData) (timestamp : String) :
    ExportData :=
  { status := "success"
    downloadLink := data.download_link
    stats := some ((data.stats).getD "")
    taskId := data.task_id
    orgId := data.org_id
    timestamp := timestamp
    expiresAt := some env.expiresISO }

/-- The connection-projection update of `handleExportSuccess`: when the
connection is known, bump its export-tracking fields and mirror the
export into the user export index when the connection carries a user
id. -/
def applyExportSuccessToConnection (cid : String) (timestamp : String)
    (exportData : ExportData) (s : ServerState) : ServerState :=
  match alistGet s.connectionStatus cid with
  | some connection =>
      let connection' := { connection with
        lastExportSuccess := some timestamp, exportStatus := "success" }
      let s' := { s with
        connectionStatus := alistSet s.connectionStatus cid connection' }
      match connection'.externalId with
      | some externalId =>
          { s' with userExports :=
              (userExportsSet s'.userExports externalId cid exportData) }
      | none => s'
  | none => s

/-- The FHIR-processing tail of `handleExportSuccess`: run
`downloadAndProcessFHIR` when the connection is known and carries a
user id; a thrown download error is caught and leaves the state
untouched. -/
def processFHIRStage (env : Env) (data : EventData) (s : ServerState) :
    ServerState :=
  match alistGet s.connectionStatus data.org_connection_id with
  | some connection =>
      match connection.externalId with
      | some externalId =>
          match downloadAndProcessFHIR env data.download_link
              data.org_connection_id externalId s.foundryDataStore
              s.ingestionHistory with
          | .ok (_, store', hist') =>
              { s with foundryDataStore := store', ingestionHistory := hist' }
          | .error _ => s
      | none => s
  | none => s

/-- `handleExportSuccess(data, timestamp)`: store the export record,
stop timeout monitoring, update the connection projection and the
user export index when the connection is known, then try to download
and process the FHIR payload when the connection carries a user id
(download errors are caught and leave the store untouched). -/
def handleExportSuccess (env : Env) (data : EventData) (timestamp : String)
    (s : ServerState) : ServerState :=
  let cid := data.org_connection_id
  let exportData := mkSuccessExportData env data timestamp
  let s₁ := { s with
    connectionExports := alistSet s.connectionExports cid exportData }
  let s₂ := { s₁ with monitors := stopExportMonitoring s₁.monitors cid }
  let s₃ := applyExportSuccessToConnection cid timestamp exportData s₂
  processFHIRStage env data s₃

/-- The export record built by `handleExportFailed`. -/
def mkFailedExportData (data : EventData) (timestamp : String) : ExportData :=
  { status := "failed"
    failureReason := data.failure_reason
    taskId := data.task_id
    orgId := data.org_id
    timestamp := timestamp }

/-- The connection-projection update of `handleExportFailed`: when the
connection is known, record the failure on it and mirror the failed
export into the user export index when the connection carries a user
id. -/
def applyExportFailureToConnection (cid : String) (timestamp : String)
    (failureReason : Option String) (exportData : ExportData)
    (s : ServerState) : ServerState :=
  match alistGet s.connectionStatus cid with
  | some connection =>
      let connection' := { connection with
        lastExportFailure := some timestamp
        exportStatus := "failed"
        failureReason := failureReason }
      let s' := { s with
        connectionStatus := alistSet s.connectionStatus cid connection' }
      match connection'.externalId with
      | some externalId =>
          { s' with userExports :=
              (userExportsSet s'.userExports externalId cid exportData) }
      | none => s'
  | none => s

/-- `handleExportFailed(data, timestamp)`: stop monitoring, store the
failure record, and update the connection projection and user export
index when the connection is known. -/
def handleExportFailed (data : EventData) (timestamp : String)
    (s : ServerState) : ServerState :=
  let cid := data.org_connection_id
  let s₁ := { s with monitors := stopExportMonitoring s.monitors cid }
  let exportData := mkFailedExportData data timestamp
  let s₂ := { s₁ with
    connectionExports := alistSet s₁.connectionExports cid exportData }
  applyExportFailureToConnection cid timestamp data.failure_reason exportData
    s₂

/-- The connection data built by `handleConnectionSuccess`. -/
def mkConnectionData (data : EventData) (timestamp : String) :
    ConnectionData :=
  { endpointId := data.endpoint_id
    brandId := data.brand_id
    portalId := data.portal_id
    connectionStatus := data.connection_status
    platformType := data.platform_type
    externalId := data.external_id
    connectedAt := timestamp
    exportStatus := "pending" }

/-- The user-index update of `handleConnectionSuccess`: add the
connection to the declared user's set when an external id is
present. -/
def indexUserConnection (externalIdOpt : Option String) (cid : String)
    (s : ServerState) : ServerState :=
  match externalIdOpt with
  | some externalId =>
      { s with userConnections :=
          (alistSet s.userConnections externalId
            (setAdd ((alistGet s.userConnections externalId).getD []) cid)) }
  | none => s

/-- The automatic-trigger tail of `handleConnectionSuccess`: when
credentials are configured, run the trigger (which mutates the stored
connection object in place, modelled by writing the updated record
back). -/
def autoTriggerStage (env : Env) (cid : String)
    (connectionData : ConnectionData) (s : ServerState) : ServerState :=
  if env.fastenConfigured then
    match triggerExportForConnection env env.nowISO s.pendingExportRequests
        cid (some connectionData) with
    | (pending', connectionData', _) =>
        let s' := { s with pendingExportRequests := pending' }
        match connectionData' with
        | some cd =>
            { s' with connectionStatus := alistSet s'.connectionStatus cid cd }
        | none => s'
  else s

/-- `handleConnectionSuccess(data, timestamp)`: store the connection in
its initial state, start export timeout monitoring, index it under the
declared user when present, and trigger the automatic export when
credentials are configured. -/
def handleConnectionSuccess (env : Env) (data : EventData)
    (timestamp : String) (s : ServerState) : ServerState :=
  let cid := data.org_connection_id
  let connectionData := mkConnectionData data timestamp
  let s₁ := { s with
    connectionStatus := alistSet s.connectionStatus cid connectionData }
  let s₂ := { s₁ with
    monitors := startExportMonitoring s₁.monitors cid connectionData
      timestamp }
  let s₃ := indexUserConnection data.external_id cid s₂
  autoTriggerStage env cid connectionData s₃

/-- The `userConnections` cleanup of `handleAuthorizationRevoked`:
remove the connection from the user's set and drop the entry when it
becomes empty. -/
def detachUserConnectionIndex (externalId cid : String) (s : ServerState) :
    ServerState :=
  match alistGet s.userConnections externalId with
  | some conns =>
      let conns' := setDel conns cid
      if conns'.isEmpty then
        { s with userConnections := alistDel s.userConnections externalId }
      else
        { s with userConnections :=
            (alistSet s.userConnections externalId conns') }
  | none => s

/-- The `userExports` cleanup of `handleAuthorizationRevoked`: remove
the connection's export from the user's map and drop the entry when it
becomes empty. -/
def detachUserExportIndex (externalId cid : String) (s : ServerState) :
    ServerState :=
  match alistGet s.userExports externalId with
  | some exps =>
      let exps' := alistDel exps cid
      if exps'.isEmpty then
        { s with userExports := alistDel s.userExports externalId }
      else
        { s with userExports := alistSet s.userExports externalId exps' }
  | none => s

/-- The connection-projection part of `handleAuthorizationRevoked`:
mark the connection with the declared status and revocation time and
detach it from the per-user indexes. -/
def revokeConnectionStage (data : EventData) (timestamp : String)
    (s : ServerState) : ServerState :=
  match alistGet s.connectionStatus data.org_connection_id with
  | some connection =>
      let connection' := { connection with
        connectionStatus := data.connection_status
        revokedAt := some timestamp }
      let s' := { s with
        connectionStatus :=
          alistSet s.connectionStatus data.org_connection_id connection' }
      match connection.externalId with
      | some externalId =>
          detachUserExportIndex externalId data.org_connection_id
            (detachUserConnectionIndex externalId data.org_connection_id s')
      | none => s'
  | none => s

/-- `handleAuthorizationRevoked(data, timestamp)`: mark the connection
with the declared status and revocation time, detach it from the
per-user connection and export indexes (dropping emptied index
entries), and delete the export record. -/
def handleAuthorizationRevoked (data : EventData) (timestamp : String)
    (s : ServerState) : ServerState :=
  let s₁ := revokeConnectionStage data timestamp s
  { s₁ with connectionExports :=
      (alistDel s₁.connectionExports data.org_connection_id) }

/-- `processWebhookEvent(body, timestamp)` without the idempotency
prologue: route by `type` to exactly one handler; `webhook.test` and
unknown types only log. -/
def dispatchEvent (env : Env) (body : WebhookBody) (timestamp : String)
    (s : ServerState) : ServerState :=
  if body.type = "patient.ehi_export_success" then
    handleExportSuccess env body.data timestamp s
  else if body.type = "patient.ehi_export_failed" then
    handleExportFailed body.data timestamp s
  else if body.type = "patient.connection_success" then
    handleConnectionSuccess env body.data timestamp s
  else if body.type = "patient.authorization_revoked" then
    handleAuthorizationRevoked body.data timestamp s
  else
    s

/-- `processWebhookEvent(body, timestamp)`: skip a duplicate event id,
otherwise mark the id as processed and dispatch; an event without an id
is never deduplicated. -/
def processWebhookEvent (env : Env) (body : WebhookBody)
    (timestamp : String) (s : ServerState) : ServerState :=
  match body.id with
  | some eventId =>
      if eventId ∈ s.processedEventIds then s
      else
        dispatchEvent env body timestamp
          { s with processedEventIds := setAdd s.processedEventIds eventId }
  | none => dispatchEvent env body timestamp s

/-! ## Handler frame lemmas -/

theorem applyExportSuccessToConnection_processedEventIds (cid ts : String)
    (exportData : ExportData) (s : ServerState) :
    (applyExportSuccessToConnection cid ts exportData s).processedEventIds =
      s.processedEventIds := by
  unfold applyExportSuccessToConnection
  split
  · dsimp only
    split <;> rfl
  · rfl

theorem processFHIRStage_processedEventIds (env : Env) (data : EventData)
    (s : ServerState) :
    (processFHIRStage env data s).processedEventIds = s.processedEventIds := by
  unfold processFHIRStage
  split
  · split
    · split <;> rfl
    · rfl
  · rfl

theorem handleExportSuccess_processedEventIds (env : Env) (data : EventData)
    (ts : String) (s : ServerState) :
    (handleExportSuccess env data ts s).processedEventIds =
      s.processedEventIds := by
  unfold handleExportSuccess
  rw [processFHIRStage_processedEventIds,
    applyExportSuccessToConnection_processedEventIds]

theorem applyExportFailureToConnection_processedEventIds (cid ts : String)
    (failureReason : Option String) (exportData : ExportData)
    (s : ServerState) :
    (applyExportFailureToConnection cid ts failureReason exportData
      s).processedEventIds = s.processedEventIds := by
  unfold applyExportFailureToConnection
  split
  · dsimp only
    split <;> rfl
  · rfl

theorem handleExportFailed_processedEventIds (data : EventData) (ts : String)
    (s : ServerState) :
    (handleExportFailed data ts s).processedEventIds = s.processedEventIds := by
  unfold handleExportFailed
  rw [applyExportFailureToConnection_processedEventIds]

theorem indexUserConnection_processedEventIds (externalIdOpt : Option String)
    (cid : String) (s : ServerState) :
    (indexUserConnection externalIdOpt cid s).processedEventIds =
      s.processedEventIds := by
  unfold indexUserConnection
  split <;> rfl

theorem autoTriggerStage_processedEventIds (env : Env) (cid : String)
    (connectionData : ConnectionData) (s : ServerState) :
    (autoTriggerStage env cid connectionData s).processedEventIds =
      s.processedEventIds := by
  unfold autoTriggerStage
  split
  · split
    dsimp only
    split <;> rfl
  · rfl

theorem handleConnectionSuccess_processedEventIds (env : Env)
    (data : EventData) (ts : String) (s : ServerState) :
    (handleConnectionSuccess env data ts s).processedEventIds =
      s.processedEventIds := by
  unfold handleConnectionSuccess
  rw [autoTriggerStage_processedEventIds,
    indexUserConnection_processedEventIds]

theorem detachUserConnectionIndex_processedEventIds (externalId cid : String)
    (s : ServerState) :
    (detachUserConnectionIndex externalId cid s).processedEventIds =
      s.processedEventIds := by
  unfold detachUserConnectionIndex
  split
  · dsimp only
    split <;> rfl
  · rfl

theorem detachUserExportIndex_processedEventIds (externalId cid : String)
    (s : ServerState) :
    (detachUserExportIndex externalId cid s).processedEventIds =
      s.processedEventIds := by
  unfold detachUserExportIndex
  split
  · dsimp only
    split <;> rfl
  · rfl

theorem revokeConnectionStage_processedEventIds (data : EventData)
    (ts : String) (s : ServerState) :
    (revokeConnectionStage data ts s).processedEventIds =
      s.processedEventIds := by
  unfold revokeConnectionStage
  split
  · dsimp only
    split
    · rw [detachUserExportIndex_processedEventIds,
        detachUserConnectionIndex_processedEventIds]
    · rfl
  · rfl

theorem handleAuthorizationRevoked_processedEventIds (data : EventData)
    (ts : String) (s : ServerState) :
    (handleAuthorizationRevoked data ts s).processedEventIds =
      s.processedEventIds := by
  unfold handleAuthorizationRevoked
  rw [show ({ revokeConnectionStage data ts s with connectionExports :=
      (alistDel (revokeConnectionStage data ts s).connectionExports
        data.org_connection_id) } : ServerState).processedEventIds =
    (revokeConnectionStage data ts s).processedEventIds from rfl]
  exact revokeConnectionStage_processedEventIds data ts s

theorem dispatchEvent_processedEventIds (env : Env) (body : WebhookBody)
    (ts : String) (s : ServerState) :
    (dispatchEvent env body ts s).processedEventIds = s.processedEventIds := by
  unfold dispatchEvent
  repeat' split
  · exact handleExportSuccess_processedEventIds env body.data ts s
  · exact handleExportFailed_processedEventIds body.data ts s
  · exact handleConnectionSuccess_processedEventIds env body.data ts s
  · exact handleAuthorizationRevoked_processedEventIds body.data ts s
  · rfl

/-! ## C1: duplicate submission is a no-op, id-less events always run -/

/-- C1.  An event that carries an id mutates the state at most once:
after one submission the id is in the idempotency ledger, so a second
submission of the same event returns the state unchanged (no handler
side effects).  An event without an id skips the ledger entirely and is
dispatched to its handler on every arrival. -/
theorem duplicate_event_processed_once (env : Env) (body : WebhookBody)
    (ts₁ ts₂ : String) (s : ServerState) :
    (∀ i, body.id = some i →
      processWebhookEvent env body ts₂ (processWebhookEvent env body ts₁ s) =
        processWebhookEvent env body ts₁ s) ∧
    (body.id = none →
      processWebhookEvent env body ts₁ s = dispatchEvent env body ts₁ s) := by
  constructor
  · intro i hi
    by_cases hmem : i ∈ s.processedEventIds
    · simp [processWebhookEvent, hi, hmem]
    · have h1 : processWebhookEvent env body ts₁ s =
          dispatchEvent env body ts₁
            { s with processedEventIds := setAdd s.processedEventIds i } := by
        simp [processWebhookEvent, hi, hmem]
      have h2 : i ∈ (processWebhookEvent env body ts₁ s).processedEventIds := by
        rw [h1, dispatchEvent_processedEventIds]
        exact mem_setAdd_self s.processedEventIds i
      conv_lhs => rw [processWebhookEvent, hi]
      dsimp only
      rw [if_pos h2]
  · intro hi
    simp [processWebhookEvent, hi]

/-- Connection-success body with an event id, for the C1 witness. -/
def bodyWithIdW : WebhookBody :=
  { id := some "evt-1", type := "patient.connection_success",
    data := { org_connection_id := "c1" } }

/-- The same body without an event id, for the C1 witness. -/
def bodyNoIdW : WebhookBody :=
  { id := none, type := "patient.connection_success",
    data := { org_connection_id := "c1" } }

/-- Environment with no credentials, for the C1 witness. -/
def envW1 : Env :=
  ⟨false, fun _ => .error "e", fun _ => none, fun _ => none, "t", "x"⟩

/-- C1 witness: the concrete event with id "evt-1" submitted twice
leaves the state of the first submission unchanged, and the id-less
variant is dispatched straight to its handler. -/
theorem duplicate_event_processed_once_witness :
    processWebhookEvent envW1 bodyWithIdW "ts2"
        (processWebhookEvent envW1 bodyWithIdW "ts1" {}) =
      processWebhookEvent envW1 bodyWithIdW "ts1" {} ∧
    processWebhookEvent envW1 bodyNoIdW "ts1" {} =
      dispatchEvent envW1 bodyNoIdW "ts1" {} :=
  ⟨(duplicate_event_processed_once envW1 bodyWithIdW "ts1" "ts2" {}).1
      "evt-1" rfl,
   (duplicate_event_processed_once envW1 bodyNoIdW "ts1" "ts2" {}).2 rfl⟩

/-! ## C3: at most one in-flight trigger per connection -/

/-- C3.  Two trigger requests for the same connection interleaved as
begin/begin (the second begins while the first is still in flight)
issue at most one provider call, and a trigger request for a connection
already in the pending set is a no-op that changes nothing and does not
call the provider. -/
theorem trigger_single_inflight (env : Env) (requestTimestamp : String)
    (pending : List String) (orgConnectionId : String)
    (connectionData : Option ConnectionData) :
    concurrentTriggerProviderCalls pending orgConnectionId ≤ 1 ∧
    (orgConnectionId ∈ pending →
      triggerExportForConnection env requestTimestamp pending
        orgConnectionId connectionData = (pending, connectionData, false)) := by
  constructor
  · by_cases hmem : orgConnectionId ∈ pending
    · simp [concurrentTriggerProviderCalls, beginTrigger, hmem]
    · have hmem2 : orgConnectionId ∈ setAdd pending orgConnectionId :=
        mem_setAdd_self pending orgConnectionId
      simp [concurrentTriggerProviderCalls, beginTrigger, hmem, hmem2]
  · intro hmem
    simp [triggerExportForConnection, beginTrigger, hmem]

/-- C3 witness: the begin/begin interleaving over the pending set
containing "c1" makes at most one provider call, and with "c1" already
pending a trigger for "c1" is a no-op that does not call the
provider. -/
theorem trigger_single_inflight_witness :
    concurrentTriggerProviderCalls ["c1"] "c1" ≤ 1 ∧
    triggerExportForConnection
        ⟨true, fun _ => .ok {}, fun _ => none, fun _ => none, "t", "x"⟩
        "ts" ["c1"] "c1" none = (["c1"], none, false) :=
  ⟨(trigger_single_inflight
      ⟨true, fun _ => .ok {}, fun _ => none, fun _ => none, "t", "x"⟩
      "ts" ["c1"] "c1" none).1,
   (trigger_single_inflight
      ⟨true, fun _ => .ok {}, fun _ => none, fun _ => none, "t", "x"⟩
      "ts" ["c1"] "c1" none).2 (by decide)⟩

/-! ## C6: cache TTL boundary -/

/-- C6 counterexample.  With the default 5-minute TTL, a value set at
time 0 and read at exactly time 300000 = 0 + TTL is still returned
(the expiry test is strict), while the claim predicts a miss for any
read at time greater than or equal to t + TTL. -/
theorem cache_hit_at_exact_ttl_cex :
    ((((FoundryCache.empty Nat).setAt "k" 42 0).getAt "k" 300000).1 =
      some 42) ∧ 0 + cacheTTLMs ≤ 300000 := by
  constructor
  · rfl
  · decide

/-- C6 amended.  A value set at time t is returned unchanged by a read
at any time now with now - t at most the TTL (including the instant
t + TTL itself), and is a miss exactly when now - t strictly exceeds
the TTL. -/
theorem cache_ttl_boundary {α : Type} (ttl : Nat) (k : String) (v : α)
    (t now : Nat) :
    (now - t ≤ ttl →
      (((FoundryCache.empty α ttl).setAt k v t).getAt k now).1 = some v) ∧
    (ttl < now - t →
      (((FoundryCache.empty α ttl).setAt k v t).getAt k now).1 = none) := by
  constructor
  · intro h
    simp [FoundryCache.empty, FoundryCache.setAt, FoundryCache.getAt,
      alistSet, alistGet, Nat.not_lt.mpr h]
  · intro h
    simp [FoundryCache.empty, FoundryCache.setAt, FoundryCache.getAt,
      alistSet, alistGet, h]

/-- C6 witness: with the default TTL a value set at 0 is still a hit at
300000 and a miss at 300001. -/
theorem cache_ttl_boundary_witness :
    (((FoundryCache.empty Nat cacheTTLMs).setAt "k" 7 0).getAt "k"
      300000).1 = some 7 ∧
    (((FoundryCache.empty Nat cacheTTLMs).setAt "k" 7 0).getAt "k"
      300001).1 = none :=
  ⟨(cache_ttl_boundary cacheTTLMs "k" 7 0 300000).1 (by decide),
   (cache_ttl_boundary cacheTTLMs "k" 7 0 300001).2 (by decide)⟩

/-! ## C8: the export deadline is not platform-aware -/

/-- C8 counterexample.  The deadline scheduled for an epic connection
equals the deadline scheduled for a cerner connection (both are the
fixed `EXPORT_TIMEOUT` of 30 minutes), so the epic deadline is not
longer than that of other platforms. -/
theorem epic_deadline_not_longer_cex :
    (((alistGet (startExportMonitoring [] "c1"
        { platformType := some "epic" } "t0") "c1").map
          (fun e => e.timeoutMs)).getD 0 = 1800000) ∧
    (((alistGet (startExportMonitoring [] "c2"
        { platformType := some "cerner" } "t0") "c2").map
          (fun e => e.timeoutMs)).getD 0 = 1800000) ∧
    ¬ (((alistGet (startExportMonitoring [] "c2"
        { platformType := some "cerner" } "t0") "c2").map
          (fun e => e.timeoutMs)).getD 0 <
        ((alistGet (startExportMonitoring [] "c1"
          { platformType := some "epic" } "t0") "c1").map
            (fun e => e.timeoutMs)).getD 0) := by
  refine ⟨rfl, rfl, ?_⟩
  decide

/-- C8 amended.  `startExportMonitoring` schedules the same fixed
30-minute deadline for every connection regardless of platform;
platform slowness (epic) surfaces only as diagnostic known-issue
annotations, not as a longer deadline. -/
theorem deadline_fixed_platform_agnostic
    (monitors : List (String × MonitorEntry)) (orgConnectionId : String)
    (connectionData : ConnectionData) (nowISO : String) :
    alistGet (startExportMonitoring monitors orgConnectionId connectionData
        nowISO) orgConnectionId =
      some { timeoutMs := EXPORT_TIMEOUT, startedAt := nowISO,
             connectionData := connectionData, status := "monitoring" } ∧
    EXPORT_TIMEOUT = 1800000 ∧
    (connectionData.platformType = some "epic" →
      getKnownProviderIssues connectionData ≠ []) := by
  refine ⟨?_, by decide, ?_⟩
  · exact alistGet_set_self monitors orgConnectionId _
  · intro h
    simp [getKnownProviderIssues, h]

/-- C8 amended witness: the entry scheduled for an epic connection
carries the fixed 1800000 ms deadline and the epic known-issue
annotations are nonempty. -/
theorem deadline_fixed_platform_agnostic_witness :
    alistGet (startExportMonitoring [] "c1"
        { platformType := some "epic" } "t0") "c1" =
      some { timeoutMs := EXPORT_TIMEOUT, startedAt := "t0",
             connectionData := { platformType := some "epic" },
             status := "monitoring" } ∧
    EXPORT_TIMEOUT = 1800000 ∧
    getKnownProviderIssues { platformType := some "epic" } ≠ [] :=
  ⟨(deadline_fixed_platform_agnostic [] "c1" { platformType := some "epic" }
      "t0").1,
   (deadline_fixed_platform_agnostic [] "c1" { platformType := some "epic" }
      "t0").2.1,
   (deadline_fixed_platform_agnostic [] "c1" { platformType := some "epic" }
      "t0").2.2 rfl⟩

/-! ## C4: streaming transform totality -/

theorem transformForFoundry_append (a b : List Resource)
    (oc ext ts : String) :
    transformForFoundry (a ++ b) oc ext ts =
      transformForFoundry a oc ext ts ++ transformForFoundry b oc ext ts := by
  simp [transformForFoundry]

theorem batchLoop_eq (parse : List Char → Option Resource) (n : Nat)
    (oc ext ts : String) (lines : List (List Char)) :
    ∀ out batch : List FoundryRecord,
      batchLoop parse n oc ext ts out batch lines =
        out ++ batch ++
          transformForFoundry ((lines.filter trimNonempty).filterMap parse)
            oc ext ts := by
  induction lines with
  | nil =>
      intro out batch
      by_cases hb : batch.isEmpty
      · rw [List.isEmpty_iff.mp hb]
        simp [batchLoop, transformForFoundry]
      · simp [batchLoop, hb, transformForFoundry]
  | cons line rest ih =>
      intro out batch
      by_cases ht : trimNonempty line
      · cases hp : parse line with
        | some r =>
            have hsingle : transformForFoundry [r] oc ext ts =
                [mkFoundryRecord oc ext ts r] := rfl
            simp only [batchLoop, ht, if_true, hp, hsingle]
            by_cases hn : n ≤ (batch ++ [mkFoundryRecord oc ext ts r]).length
            · rw [if_pos hn, ih]
              simp [List.filter_cons, ht, List.filterMap_cons, hp,
                transformForFoundry, List.append_assoc]
            · rw [if_neg hn, ih]
              simp [List.filter_cons, ht, List.filterMap_cons, hp,
                transformForFoundry, List.append_assoc]
        | none =>
            simp only [batchLoop, ht, if_true, hp]
            rw [ih]
            simp [List.filter_cons, ht, List.filterMap_cons, hp]
      · simp only [batchLoop, ht, if_false]
        rw [ih]
        simp [List.filter_cons, ht]

theorem parseLines_split_carry (parse : List Char → Option Resource)
    (pre tail : List Char) (hpre : '\n' ∉ lastLine pre) :
    parseLines parse (pre ++ tail) =
      (((splitLines pre).dropLast.filter trimNonempty).filterMap parse) ++
        parseLines parse (lastLine pre ++ tail) := by
  rw [parseLines, parseLines, splitLines_append pre tail,
    splitLines_append (lastLine pre) tail]
  have hll : lastLine (lastLine pre) = lastLine pre := by
    rw [lastLine, splitLines_no_newline (lastLine pre) hpre]
    rfl
  rw [hll, splitLines_no_newline (lastLine pre) hpre,
    show ([lastLine pre] : List (List Char)).dropLast = [] from rfl,
    List.nil_append]
  simp [List.filter_append, List.filterMap_append]

theorem streamChunks_eq (parse : List Char → Option Resource) (n : Nat)
    (oc ext ts : String) (chunks : List (List Char)) :
    ∀ (acc : List FoundryRecord) (buffer : List Char), '\n' ∉ buffer →
      streamChunks parse n oc ext ts acc buffer chunks =
        acc ++
          transformForFoundry (parseLines parse (buffer ++ chunks.join))
            oc ext ts := by
  induction chunks with
  | nil =>
      intro acc buffer hb
      have hsplit : splitLines buffer = [buffer] :=
        splitLines_no_newline buffer hb
      by_cases ht : trimNonempty buffer
      · cases hp : parse buffer with
        | some r =>
            simp [streamChunks, ht, hp, parseLines, hsplit,
              transformForFoundry]
        | none =>
            simp [streamChunks, ht, hp, parseLines, hsplit,
              transformForFoundry]
      · simp [streamChunks, ht, parseLines, hsplit, transformForFoundry]
  | cons chunk rest ih =>
      intro acc buffer hb
      have hb' : '\n' ∉ (splitLines (buffer ++ chunk)).getLastD [] := by
        have h := no_newline_mem_lastLine (buffer ++ chunk)
        rwa [lastLine] at h
      simp only [streamChunks]
      rw [ih _ _ hb', batchLoop_eq]
      have hjoin : buffer ++ (chunk :: rest).join =
          (buffer ++ chunk) ++ rest.join := by
        simp [List.append_assoc]
      rw [hjoin, parseLines_split_carry parse (buffer ++ chunk) rest.join
        (no_newline_mem_lastLine (buffer ++ chunk)), transformForFoundry_append]
      rw [show (splitLines (buffer ++ chunk)).getLastD [] =
        lastLine (buffer ++ chunk) from rfl]
      simp [List.append_assoc]

theorem length_filterMap_eq_countP {α β : Type} (f : α → Option β)
    (l : List α) :
    (l.filterMap f).length = l.countP (fun a => (f a).isSome) := by
  induction l with
  | nil => simp
  | cons a t ih =>
      cases hf : f a <;> simp [List.filterMap_cons, hf, List.countP_cons, ih]

/-- The newline-delimited payload assembled from a list of lines, the
inverse direction of `splitLines`. -/
def joinLines : List (List Char) → List Char
  | [] => []
  | [l] => l
  | l :: l₂ :: rest => l ++ '\n' :: joinLines (l₂ :: rest)

theorem splitLines_joinLines (lines : List (List Char))
    (h : ∀ l ∈ lines, '\n' ∉ l ∧ trimNonempty l = true) :
    (splitLines (joinLines lines)).filter trimNonempty = lines := by
  induction lines with
  | nil => simp [joinLines, splitLines, trimNonempty, trimChars, isWs]
  | cons l rest ih =>
      cases rest with
      | nil =>
          have hl := h l (by simp)
          rw [show joinLines [l] = l from rfl,
            splitLines_no_newline l hl.1]
          simp [hl.2]
      | cons l₂ rest₂ =>
          have hl := h l (by simp)
          have hrest : ∀ x ∈ l₂ :: rest₂, '\n' ∉ x ∧ trimNonempty x = true :=
            fun x hx => h x (by simp [hx])
          have hstep : splitLines (joinLines (l :: l₂ :: rest₂)) =
              l :: splitLines (joinLines (l₂ :: rest₂)) := by
            rw [show joinLines (l :: l₂ :: rest₂) =
              l ++ '\n' :: joinLines (l₂ :: rest₂) from rfl]
            rw [splitLines_append l ('\n' :: joinLines (l₂ :: rest₂)),
              splitLines_no_newline l hl.1]
            have hnl : splitLines ('\n' :: joinLines (l₂ :: rest₂)) =
                [] :: splitLines (joinLines (l₂ :: rest₂)) := by
              simp [splitLines]
            rw [hnl]
            simp [lastLine, splitLines_no_newline l hl.1, consHead]
          rw [hstep]
          simp [List.filter_cons, hl.2, ih hrest]

/-- C4.  The streaming transform is total and canonical: on any chunked
payload it yields exactly the records of the whole-payload parse
(malformed lines skipped, order preserved); the result is independent
of the configured batch size; on a payload assembled from N valid and M
malformed newline-delimited lines it yields one record per valid line
in input order, hence exactly N records; and the plain
`downloadAndProcessFHIR` path yields the same records. -/
theorem stream_transform_totality (parse : List Char → Option Resource)
    (oc ext ts : String) (n₁ n₂ : Nat) (chunks : List (List Char)) :
    streamProcessFHIR parse n₁ oc ext ts chunks =
      transformForFoundry (parseLines parse chunks.join) oc ext ts ∧
    streamProcessFHIR parse n₁ oc ext ts chunks =
      streamProcessFHIR parse n₂ oc ext ts chunks ∧
    (∀ lines : List (List Char),
      (∀ l ∈ lines, '\n' ∉ l ∧ trimNonempty l = true) →
      chunks.join = joinLines lines →
      streamProcessFHIR parse n₁ oc ext ts chunks =
        transformForFoundry (lines.filterMap parse) oc ext ts ∧
      (streamProcessFHIR parse n₁ oc ext ts chunks).length =
        lines.countP (fun l => (parse l).isSome)) ∧
    (∀ (env : Env) (store : List (String × List FoundryRecord))
      (hist : List BatchSnapshot) (link : String),
      env.fastenConfigured = true →
      env.download link = some chunks.join →
      env.parseJSON = parse →
      env.nowISO = ts →
      (downloadAndProcessFHIR env (some link) oc ext store hist).map
          (fun r => r.1) =
        Except.ok (streamProcessFHIR parse n₁ oc ext ts chunks)) := by
  have hmain : ∀ n : Nat, streamProcessFHIR parse n oc ext ts chunks =
      transformForFoundry (parseLines parse chunks.join) oc ext ts := by
    intro n
    rw [streamProcessFHIR, streamChunks_eq parse n oc ext ts chunks [] []
      (by simp)]
    simp
  refine ⟨hmain n₁, by rw [hmain n₁, hmain n₂], ?_, ?_⟩
  · intro lines hlines hjoin
    have hcanon : parseLines parse chunks.join = lines.filterMap parse := by
      rw [hjoin, parseLines, splitLines_joinLines lines hlines]
    constructor
    · rw [hmain n₁, hcanon]
    · rw [hmain n₁, hcanon, transformForFoundry, List.length_map,
        length_filterMap_eq_countP]
  · intro env store hist link hcfg hdl hparse hnow
    rw [downloadAndProcessFHIR, hcfg, hdl]
    simp only [Bool.not_true, Bool.false_eq_true, if_false]
    rw [hmain n₁, hparse, hnow]
    rfl

/-- Concrete parse function for the C4 witness: accepts the lines "a"
and "b", rejects everything else. -/
def parseW : List Char → Option Resource := fun l =>
  if l = ['a'] then some ⟨some "Patient", some "1", "a"⟩
  else if l = ['b'] then some ⟨some "Observation", some "2", "b"⟩
  else none

/-- Concrete chunked payload for the C4 witness: "a\nb\nxx" split mid
line across two chunks; "xx" is a malformed line. -/
def chunksW : List (List Char) := [['a', '\n', 'b'], ['\n', 'x', 'x']]

/-- Concrete line list for the C4 witness. -/
def linesW : List (List Char) := [['a'], ['b'], ['x', 'x']]

/-- C4 witness: on the concrete chunked payload the streaming transform
with batch size 1 equals the whole-payload parse and the batch size
1000 run, yields exactly the two valid records in input order, and
matches the `downloadAndProcessFHIR` path. -/
theorem stream_transform_totality_witness :
    streamProcessFHIR parseW 1 "c1" "u1" "t0" chunksW =
      transformForFoundry (parseLines parseW chunksW.join) "c1" "u1" "t0" ∧
    streamProcessFHIR parseW 1 "c1" "u1" "t0" chunksW =
      streamProcessFHIR parseW 1000 "c1" "u1" "t0" chunksW ∧
    (streamProcessFHIR parseW 1 "c1" "u1" "t0" chunksW =
      transformForFoundry (linesW.filterMap parseW) "c1" "u1" "t0" ∧
    (streamProcessFHIR parseW 1 "c1" "u1" "t0" chunksW).length =
      linesW.countP (fun l => (parseW l).isSome)) ∧
    (downloadAndProcessFHIR
        ⟨true, fun _ => .error "e", fun _ => some chunksW.join, parseW,
          "t0", "x"⟩ (some "L") "c1" "u1" [] []).map (fun r => r.1) =
      Except.ok (streamProcessFHIR parseW 1 "c1" "u1" "t0" chunksW) := by
  have h := stream_transform_totality parseW "c1" "u1" "t0" 1 1000 chunksW
  refine ⟨h.1, h.2.1, ?_, ?_⟩
  · exact h.2.2.1 linesW (by decide) (by decide)
  · exact h.2.2.2 ⟨true, fun _ => .error "e", fun _ => some chunksW.join,
      parseW, "t0", "x"⟩ [] [] "L" rfl rfl rfl rfl

/-! ## C7: bounded retry with linear backoff -/

theorem fetch_eq_ok (responses : Nat → FetchResponse)
    (maxRetries retryDelayMs attempt : Nat)
    (h : (responses attempt).ok = true) :
    authorizedFastenFetch responses maxRetries retryDelayMs attempt =
      { result := .ok attempt, fetchCalls := 1, delays := [],
        retriedStatuses := [] } := by
  unfold authorizedFastenFetch
  simp [h]

theorem fetch_eq_retry (responses : Nat → FetchResponse)
    (maxRetries retryDelayMs attempt : Nat)
    (hok : (responses attempt).ok = false)
    (hc : attempt ≤ maxRetries ∧
      (responses attempt).status ∈ retryableStatuses) :
    authorizedFastenFetch responses maxRetries retryDelayMs attempt =
      { result := (authorizedFastenFetch responses maxRetries retryDelayMs
          (attempt + 1)).result
        fetchCalls := (authorizedFastenFetch responses maxRetries retryDelayMs
          (attempt + 1)).fetchCalls + 1
        delays := retryDelayMs * attempt ::
          (authorizedFastenFetch responses maxRetries retryDelayMs
            (attempt + 1)).delays
        retriedStatuses := (responses attempt).status ::
          (authorizedFastenFetch responses maxRetries retryDelayMs
            (attempt + 1)).retriedStatuses } := by
  conv_lhs => rw [authorizedFastenFetch]
  simp [hok, hc.1, hc.2]

theorem fetch_eq_throw (responses : Nat → FetchResponse)
    (maxRetries retryDelayMs attempt : Nat)
    (hok : (responses attempt).ok = false)
    (hc : ¬(attempt ≤ maxRetries ∧
      (responses attempt).status ∈ retryableStatuses)) :
    authorizedFastenFetch responses maxRetries retryDelayMs attempt =
      { result := .error (responses attempt).status, fetchCalls := 1,
        delays := [], retriedStatuses := [] } := by
  unfold authorizedFastenFetch
  simp [hok, hc]

theorem fetch_props_aux (responses : Nat → FetchResponse)
    (maxRetries retryDelayMs : Nat) :
    ∀ (k attempt : Nat), maxRetries + 1 - attempt ≤ k →
      1 ≤ (authorizedFastenFetch responses maxRetries retryDelayMs
        attempt).fetchCalls ∧
      (attempt ≤ maxRetries + 1 →
        (authorizedFastenFetch responses maxRetries retryDelayMs
          attempt).fetchCalls + attempt ≤ maxRetries + 2) ∧
      (authorizedFastenFetch responses maxRetries retryDelayMs
        attempt).delays =
        (List.range ((authorizedFastenFetch responses maxRetries retryDelayMs
          attempt).fetchCalls - 1)).map
          (fun i => retryDelayMs * (attempt + i)) ∧
      (∀ st ∈ (authorizedFastenFetch responses maxRetries retryDelayMs
        attempt).retriedStatuses, st ∈ retryableStatuses) := by
  intro k
  induction k with
  | zero =>
      intro attempt hk
      have hbig : maxRetries + 1 ≤ attempt := by omega
      cases hok : (responses attempt).ok with
      | true =>
          rw [fetch_eq_ok responses maxRetries retryDelayMs attempt hok]
          refine ⟨by simp, by intro h; simp; omega, by simp, by simp⟩
      | false =>
          have hc : ¬(attempt ≤ maxRetries ∧
              (responses attempt).status ∈ retryableStatuses) := by
            intro hco
            omega
          rw [fetch_eq_throw responses maxRetries retryDelayMs attempt hok hc]
          refine ⟨by simp, by intro h; simp; omega, by simp, by simp⟩
  | succ k ih =>
      intro attempt hk
      cases hok : (responses attempt).ok with
      | true =>
          rw [fetch_eq_ok responses maxRetries retryDelayMs attempt hok]
          refine ⟨by simp, by intro h; simp; omega, by simp, by simp⟩
      | false =>
          by_cases hc : attempt ≤ maxRetries ∧
            (responses attempt).status ∈ retryableStatuses
          · rw [fetch_eq_retry responses maxRetries retryDelayMs attempt hok
              hc]
            have hrec := ih (attempt + 1) (by omega)
            obtain ⟨h1, h2, h3, h4⟩ := hrec
            refine ⟨by simp, ?_, ?_, ?_⟩
            · intro _
              have := h2 (by omega)
              simp only
              omega
            · simp only
              rw [Nat.add_sub_cancel]
              obtain ⟨m, hm⟩ : ∃ m, (authorizedFastenFetch responses
                  maxRetries retryDelayMs (attempt + 1)).fetchCalls =
                  m + 1 := ⟨_, (Nat.succ_pred_eq_of_pos h1).symm⟩
              rw [h3, hm, List.range_succ_eq_map]
              simp only [List.map_cons, List.map_map, Nat.add_zero,
                Nat.add_sub_cancel]
              refine congrArg₂ _ rfl ?_
              apply List.map_congr_left
              intro i _
              simp only [Function.comp, Nat.succ_eq_add_one]
              congr 1
              omega
            · intro st hst
              simp only [List.mem_cons] at hst
              rcases hst with h | h
              · rw [h]; exact hc.2
              · exact h4 st h
          · rw [fetch_eq_throw responses maxRetries retryDelayMs attempt hok
              hc]
            refine ⟨by simp, by intro h; simp; omega, by simp, by simp⟩

theorem retryable_classes :
    ∀ st ∈ retryableStatuses,
      st = 408 ∨ st = 429 ∨ (500 ≤ st ∧ st < 600) := by
  decide

/-- C7.  The provider fetch retries only on the designated transient
statuses (408, 429 and a subset of 5xx), caps the number of fetches at
`maxRetries + 1` (so at most `maxRetries` retries, default 3), waits a
linearly increasing backoff of `retryDelayMs * attempt` before the
attempt-th retry, and throws immediately without any retry on a
non-retryable failure status such as 400 or 401. -/
theorem fetch_retry_policy (responses : Nat → FetchResponse)
    (maxRetries retryDelayMs : Nat) :
    1 ≤ (authorizedFastenFetch responses maxRetries retryDelayMs
      1).fetchCalls ∧
    (authorizedFastenFetch responses maxRetries retryDelayMs 1).fetchCalls ≤
      maxRetries + 1 ∧
    (authorizedFastenFetch responses maxRetries retryDelayMs 1).delays =
      (List.range ((authorizedFastenFetch responses maxRetries retryDelayMs
        1).fetchCalls - 1)).map (fun i => retryDelayMs * (1 + i)) ∧
    (∀ st ∈ (authorizedFastenFetch responses maxRetries retryDelayMs
      1).retriedStatuses,
      st ∈ retryableStatuses ∧
        (st = 408 ∨ st = 429 ∨ (500 ≤ st ∧ st < 600))) ∧
    ((responses 1).ok = false → (responses 1).status ∉ retryableStatuses →
      authorizedFastenFetch responses maxRetries retryDelayMs 1 =
        { result := .error (responses 1).status, fetchCalls := 1,
          delays := [], retriedStatuses := [] }) := by
  have h := fetch_props_aux responses maxRetries retryDelayMs
    (maxRetries + 1) 1 (by omega)
  obtain ⟨h1, h2, h3, h4⟩ := h
  refine ⟨h1, by have := h2 (by omega); omega, h3, ?_, ?_⟩
  · intro st hst
    exact ⟨h4 st hst, retryable_classes st (h4 st hst)⟩
  · intro hok hnr
    exact fetch_eq_throw responses maxRetries retryDelayMs 1 hok
      (fun hco => hnr hco.2)

/-- Responses for the C7 witness: a 500 on the first attempt, success
on the second. -/
def respRetryW : Nat → FetchResponse := fun n =>
  if n = 1 then ⟨false, 500⟩ else ⟨true, 200⟩

/-- Responses for the C7 witness immediate-failure conjunct: a 400 on
every attempt. -/
def respBadRequestW : Nat → FetchResponse := fun _ => ⟨false, 400⟩

/-- C7 witness: with the default cap of 3 retries and base delay 500,
the 500-then-200 scenario satisfies every clause, and the 400 scenario
(hypotheses discharged concretely) throws immediately after exactly one
fetch with no delays. -/
theorem fetch_retry_policy_witness :
    1 ≤ (authorizedFastenFetch respRetryW defaultMaxRetries
      defaultRetryDelayMs 1).fetchCalls ∧
    (authorizedFastenFetch respRetryW defaultMaxRetries defaultRetryDelayMs
      1).fetchCalls ≤ defaultMaxRetries + 1 ∧
    (authorizedFastenFetch respRetryW defaultMaxRetries defaultRetryDelayMs
      1).delays =
      (List.range ((authorizedFastenFetch respRetryW defaultMaxRetries
        defaultRetryDelayMs 1).fetchCalls - 1)).map
        (fun i => defaultRetryDelayMs * (1 + i)) ∧
    (∀ st ∈ (authorizedFastenFetch respRetryW defaultMaxRetries
      defaultRetryDelayMs 1).retriedStatuses,
      st ∈ retryableStatuses ∧
        (st = 408 ∨ st = 429 ∨ (500 ≤ st ∧ st < 600))) ∧
    authorizedFastenFetch respBadRequestW defaultMaxRetries
        defaultRetryDelayMs 1 =
      { result := .error 400, fetchCalls := 1, delays := [],
        retriedStatuses := [] } := by
  have ha := fetch_retry_policy respRetryW defaultMaxRetries
    defaultRetryDelayMs
  have hb := fetch_retry_policy respBadRequestW defaultMaxRetries
    defaultRetryDelayMs
  exact ⟨ha.1, ha.2.1, ha.2.2.1, ha.2.2.2.1,
    hb.2.2.2.2 rfl (by decide)⟩

/-! ## C2: what survives revocation -/

/-- The `connectionStatus` field of the connection projected at a key,
the status that `authorization_revoked` sets to the declared revoked
value. -/
def connStatusAt (m : List (String × ConnectionData)) (c : String) :
    Option (Option String) :=
  (alistGet m c).map (fun cd => cd.connectionStatus)

theorem connStatusAt_set (m : List (String × ConnectionData))
    (cid c : String) (cd cd' : ConnectionData)
    (hget : alistGet m cid = some cd)
    (hf : cd'.connectionStatus = cd.connectionStatus) :
    connStatusAt (alistSet m cid cd') c = connStatusAt m c := by
  unfold connStatusAt
  by_cases h : cid = c
  · subst h
    rw [alistGet_set_self, hget]
    simp [hf]
  · rw [alistGet_set_other _ _ _ _ h]

theorem applyExportSuccessToConnection_connStatusAt (cid ts : String)
    (exportData : ExportData) (s : ServerState) (c : String) :
    connStatusAt (applyExportSuccessToConnection cid ts exportData
      s).connectionStatus c = connStatusAt s.connectionStatus c := by
  unfold applyExportSuccessToConnection
  split
  case h_1 connection heq =>
      dsimp only
      split
      · exact connStatusAt_set _ _ _ _ _ heq rfl
      · exact connStatusAt_set _ _ _ _ _ heq rfl
  case h_2 => rfl

theorem applyExportFailureToConnection_connStatusAt (cid ts : String)
    (failureReason : Option String) (exportData : ExportData)
    (s : ServerState) (c : String) :
    connStatusAt (applyExportFailureToConnection cid ts failureReason
      exportData s).connectionStatus c = connStatusAt s.connectionStatus c := by
  unfold applyExportFailureToConnection
  split
  case h_1 connection heq =>
      dsimp only
      split
      · exact connStatusAt_set _ _ _ _ _ heq rfl
      · exact connStatusAt_set _ _ _ _ _ heq rfl
  case h_2 => rfl

theorem processFHIRStage_connectionStatus (env : Env) (data : EventData)
    (s : ServerState) :
    (processFHIRStage env data s).connectionStatus = s.connectionStatus := by
  unfold processFHIRStage
  split
  · split
    · split <;> rfl
    · rfl
  · rfl

theorem processFHIRStage_connectionExports (env : Env) (data : EventData)
    (s : ServerState) :
    (processFHIRStage env data s).connectionExports = s.connectionExports := by
  unfold processFHIRStage
  split
  · split
    · split <;> rfl
    · rfl
  · rfl

theorem applyExportSuccessToConnection_connectionExports (cid ts : String)
    (exportData : ExportData) (s : ServerState) :
    (applyExportSuccessToConnection cid ts exportData s).connectionExports =
      s.connectionExports := by
  unfold applyExportSuccessToConnection
  split
  · dsimp only
    split <;> rfl
  · rfl

/-- C2 counterexample ingredients: an environment with no credentials
and a failing downloader (so no trigger and no FHIR processing runs),
and the three-event history connect, revoke, export-success for
connection "c1". -/
def envNoOp : Env :=
  ⟨false, fun _ => .error "e", fun _ => none, fun _ => none, "t", "x"⟩

/-- Connection-success body for connection "c1" of user "u1". -/
def bodyConnW : WebhookBody :=
  { id := none, type := "patient.connection_success",
    data := { org_connection_id := "c1", external_id := some "u1",
              platform_type := some "epic",
              connection_status := some "active" } }

/-- Authorization-revoked body for connection "c1". -/
def bodyRevokeW : WebhookBody :=
  { id := none, type := "patient.authorization_revoked",
    data := { org_connection_id := "c1",
              connection_status := some "revoked" } }

/-- Export-success body for connection "c1". -/
def bodyExportW : WebhookBody :=
  { id := none, type := "patient.ehi_export_success",
    data := { org_connection_id := "c1", download_link := some "D" } }

/-- State after connect. -/
def cexS1 : ServerState := processWebhookEvent envNoOp bodyConnW "ts1" {}

/-- State after connect then revoke. -/
def cexS2 : ServerState := processWebhookEvent envNoOp bodyRevokeW "ts2" cexS1

/-- State after connect, revoke, then export-success. -/
def cexS3 : ServerState := processWebhookEvent envNoOp bodyExportW "ts3" cexS2

/-- C2 counterexample.  After revocation the export record for "c1" is
deleted and the connection is marked revoked, yet a subsequent
export_success event re-creates the export record (with status
success) and flips the connection's exportStatus to success —
contradicting the claim that no event re-creates export state for a
revoked connection. -/
theorem revoked_export_state_recreated_cex :
    alistGet cexS2.connectionExports "c1" = none ∧
    connStatusAt cexS2.connectionStatus "c1" = some (some "revoked") ∧
    alistGet cexS3.connectionExports "c1" =
      some { status := "success", downloadLink := some "D",
             stats := some "", taskId := none, orgId := none,
             failureReason := none, timestamp := "ts3",
             expiresAt := some "x" } ∧
    (alistGet cexS3.connectionStatus "c1").map (fun cd => cd.exportStatus) =
      some "success" := by
  decide

/-- C2 amended.  The `connectionStatus` field of every connection
survives export_success and export_failed events unchanged (so a
connection marked revoked stays marked revoked under those events), but
an export_success event unconditionally re-creates the current export
record for its connection id — the code does not block export-state
mutation on revoked connections. -/
theorem revoked_status_survives_export_events (env : Env)
    (data : EventData) (ts : String) (s : ServerState) (c : String) :
    connStatusAt (handleExportSuccess env data ts s).connectionStatus c =
      connStatusAt s.connectionStatus c ∧
    connStatusAt (handleExportFailed data ts s).connectionStatus c =
      connStatusAt s.connectionStatus c ∧
    alistGet (handleExportSuccess env data ts s).connectionExports
        data.org_connection_id = some (mkSuccessExportData env data ts) := by
  refine ⟨?_, ?_, ?_⟩
  · unfold handleExportSuccess
    dsimp only
    rw [show ∀ s' : ServerState, (processFHIRStage env data s').connectionStatus
        = s'.connectionStatus from fun s' =>
        processFHIRStage_connectionStatus env data s']
    rw [show connStatusAt (applyExportSuccessToConnection
        data.org_connection_id ts (mkSuccessExportData env data ts)
        { s with
          connectionExports := alistSet s.connectionExports
            data.org_connection_id (mkSuccessExportData env data ts),
          monitors := stopExportMonitoring s.monitors
            data.org_connection_id }).connectionStatus c =
      connStatusAt s.connectionStatus c from
      applyExportSuccessToConnection_connStatusAt _ _ _ _ _]
  · unfold handleExportFailed
    dsimp only
    rw [show connStatusAt (applyExportFailureToConnection
        data.org_connection_id ts data.failure_reason
        (mkFailedExportData data ts)
        { s with
          monitors := stopExportMonitoring s.monitors data.org_connection_id,
          connectionExports := alistSet s.connectionExports
            data.org_connection_id (mkFailedExportData data ts)
          }).connectionStatus c = connStatusAt s.connectionStatus c from
      applyExportFailureToConnection_connStatusAt _ _ _ _ _ _]
  · unfold handleExportSuccess
    dsimp only
    rw [processFHIRStage_connectionExports,
      applyExportSuccessToConnection_connectionExports]
    exact alistGet_set_self _ _ _

/-! ## C9: export_failed for an unknown connection -/

/-- C9.  An export_failed event for a connection id with no Connection
entry stores a queryable failed Export record for that id and leaves
the connection map, both per-user indexes, and the foundry record store
untouched (no Connection is created, no user index mutated, no error
raised — the handler is total). -/
theorem export_failed_unknown_connection (data : EventData) (ts : String)
    (s : ServerState)
    (h : alistGet s.connectionStatus data.org_connection_id = none) :
    alistGet (handleExportFailed data ts s).connectionExports
      data.org_connection_id = some (mkFailedExportData data ts) ∧
    (handleExportFailed data ts s).connectionStatus = s.connectionStatus ∧
    (handleExportFailed data ts s).userConnections = s.userConnections ∧
    (handleExportFailed data ts s).userExports = s.userExports ∧
    (handleExportFailed data ts s).foundryDataStore = s.foundryDataStore := by
  unfold handleExportFailed
  dsimp only
  unfold applyExportFailureToConnection
  dsimp only
  rw [h]
  exact ⟨alistGet_set_self _ _ _, rfl, rfl, rfl, rfl⟩

/-- C9 witness: an export_failed event for the unknown connection "c9"
on the empty state. -/
theorem export_failed_unknown_connection_witness :
    alistGet (handleExportFailed
        { org_connection_id := "c9", failure_reason := some "bad" } "ts"
        {}).connectionExports "c9" =
      some (mkFailedExportData
        { org_connection_id := "c9", failure_reason := some "bad" } "ts") ∧
    (handleExportFailed
        { org_connection_id := "c9", failure_reason := some "bad" } "ts"
        {}).connectionStatus = ({} : ServerState).connectionStatus ∧
    (handleExportFailed
        { org_connection_id := "c9", failure_reason := some "bad" } "ts"
        {}).userConnections = ({} : ServerState).userConnections ∧
    (handleExportFailed
        { org_connection_id := "c9", failure_reason := some "bad" } "ts"
        {}).userExports = ({} : ServerState).userExports ∧
    (handleExportFailed
        { org_connection_id := "c9", failure_reason := some "bad" } "ts"
        {}).foundryDataStore = ({} : ServerState).foundryDataStore :=
  export_failed_unknown_connection
    { org_connection_id := "c9", failure_reason := some "bad" } "ts" {} rfl

/-! ## C10: export_success without a user id touches no per-user state -/

theorem alistGet_stopExportMonitoring
    (monitors : List (String × MonitorEntry)) (cid : String)
    (e : MonitorEntry) (h : alistGet monitors cid = some e) :
    alistGet (stopExportMonitoring monitors cid) cid =
      some { e with status := "completed" } := by
  unfold stopExportMonitoring
  rw [h]
  exact alistGet_set_self _ _ _

/-- C10.  When an export_success event arrives for a connection with no
registry entry, or whose registry entry has no user id, the handler
stores the success Export record (queryable by connection id) and marks
the timeout-monitoring entry completed, but runs no download: the
foundry record store, the ingestion history and both per-user indexes
are unchanged. -/
theorem export_success_without_user_frame (env : Env) (data : EventData)
    (ts : String) (s : ServerState)
    (h : alistGet s.connectionStatus data.org_connection_id = none ∨
      ∃ cd, alistGet s.connectionStatus data.org_connection_id = some cd ∧
        cd.externalId = none) :
    (alistGet (handleExportSuccess env data ts s).connectionExports
      data.org_connection_id).map (fun e => e.status) = some "success" ∧
    (handleExportSuccess env data ts s).foundryDataStore =
      s.foundryDataStore ∧
    (handleExportSuccess env data ts s).ingestionHistory =
      s.ingestionHistory ∧
    (handleExportSuccess env data ts s).userExports = s.userExports ∧
    (handleExportSuccess env data ts s).userConnections =
      s.userConnections ∧
    (∀ e, alistGet s.monitors data.org_connection_id = some e →
      alistGet (handleExportSuccess env data ts s).monitors
        data.org_connection_id = some { e with status := "completed" }) := by
  unfold handleExportSuccess
  dsimp only
  rcases h with h | ⟨cd, hget, hext⟩
  · unfold applyExportSuccessToConnection
    dsimp only
    rw [h]
    unfold processFHIRStage
    dsimp only
    rw [h]
    refine ⟨?_, rfl, rfl, rfl, rfl, ?_⟩
    · rw [alistGet_set_self]
      rfl
    · intro e he
      exact alistGet_stopExportMonitoring s.monitors _ e he
  · unfold applyExportSuccessToConnection
    dsimp only
    rw [hget]
    dsimp only
    rw [hext]
    unfold processFHIRStage
    dsimp only
    rw [alistGet_set_self]
    refine ⟨?_, rfl, rfl, rfl, rfl, ?_⟩
    · rw [alistGet_set_self]
      rfl
    · intro e he
      exact alistGet_stopExportMonitoring s.monitors _ e he

/-- Monitor entry for the C10 witness. -/
def monW : MonitorEntry :=
  { timeoutMs := 1800000, startedAt := "t0",
    connectionData := { connectedAt := "t0" }, status := "monitoring" }

/-- State for the C10 witness: connection "c1" known but without a user
id, with one active monitor. -/
def stateW10 : ServerState :=
  { connectionStatus := [("c1", { connectedAt := "t0" })],
    monitors := [("c1", monW)] }

/-- Event data for the C10 witness. -/
def dataW10 : EventData :=
  { org_connection_id := "c1", download_link := some "D" }

/-- C10 witness: export_success for "c1" whose registry entry carries
no user id, on a state with one active monitor for "c1". -/
theorem export_success_without_user_frame_witness :
    (alistGet (handleExportSuccess envNoOp dataW10 "ts"
      stateW10).connectionExports "c1").map (fun e => e.status) =
      some "success" ∧
    (handleExportSuccess envNoOp dataW10 "ts" stateW10).foundryDataStore =
      stateW10.foundryDataStore ∧
    (handleExportSuccess envNoOp dataW10 "ts" stateW10).ingestionHistory =
      stateW10.ingestionHistory ∧
    (handleExportSuccess envNoOp dataW10 "ts" stateW10).userExports =
      stateW10.userExports ∧
    (handleExportSuccess envNoOp dataW10 "ts" stateW10).userConnections =
      stateW10.userConnections ∧
    (∀ e, alistGet stateW10.monitors "c1" = some e →
      alistGet (handleExportSuccess envNoOp dataW10 "ts"
        stateW10).monitors "c1" = some { e with status := "completed" }) :=
  export_success_without_user_frame envNoOp dataW10 "ts" stateW10
    (Or.inr ⟨{ connectedAt := "t0" }, rfl, rfl⟩)

/-! ## C5: the aggregate cache is never invalidated on ingestion -/

/-- A stored record for the C5 theorem. -/
def rW1 : FoundryRecord :=
  mkFoundryRecord "c1" "u1" "t0" ⟨some "Patient", some "1", "a"⟩

/-- A freshly ingested record for the C5 theorem. -/
def rW2 : FoundryRecord :=
  mkFoundryRecord "c1" "u1" "t1" ⟨some "Observation", some "2", "b"⟩

/-- Initial record store for the C5 theorem. -/
def storeW0 : List (String × List FoundryRecord) := [("u1", [rW1])]

/-- C5 (code bug).  On the concrete run: the aggregate endpoint is read
at time 0 (filling the cache with the single record), a processing run
then appends a new record for the user via `storeForFoundryIngestion`,
and a second aggregate read at time 1000 — well inside the 5-minute
TTL — still returns the cached one-record value, missing the appended
record, because nothing ever invalidates the cache on ingestion. -/
theorem cache_stale_after_ingestion :
    (storeForFoundryIngestion "u1" "c1" [rW2] "t1" none storeW0 []).1 =
      [("u1", [rW1, rW2])] ∧
    getAllFoundryData
      (storeForFoundryIngestion "u1" "c1" [rW2] "t1" none storeW0 []).1 =
      [rW1, rW2] ∧
    (foundryDataEndpoint
      (storeForFoundryIngestion "u1" "c1" [rW2] "t1" none storeW0 []).1
      (foundryDataEndpoint storeW0
        (FoundryCache.empty (List FoundryRecord)) 0).2 1000).1 = [rW1] ∧
    (foundryDataEndpoint
      (storeForFoundryIngestion "u1" "c1" [rW2] "t1" none storeW0 []).1
      (foundryDataEndpoint storeW0
        (FoundryCache.empty (List FoundryRecord)) 0).2 1000).1 ≠
      getAllFoundryData
        (storeForFoundryIngestion "u1" "c1" [rW2] "t1" none storeW0 []).1 := by
  decide

end Fasten
